import Mathlib

/-!
Shallow embedding of the sales-analytics pipeline in
`src/utils/data_processor.py`, together with theorems settling the
specification claims about it.

Modelling conventions:
* Python dict rows are modelled as the `Transaction` structure: the parser
  always emits all eight keys with string values, so field presence is
  encoded by the structure type and the "missing or None" branch of the
  required-field check collapses to the empty-string test.
* Python `int` is `Int`, `float` is `Rat` (exact arithmetic; overflow and
  rounding of IEEE doubles are not modelled).
* Python `float` division raises `ZeroDivisionError` on a zero divisor;
  it is modelled by `pyDivQ` in the `Except` monad.
* Python's stable `sorted` is modelled by a stable insertion sort
  (`pySorted`); for a total preorder key the stable sort result is unique,
  so this agrees with the source.
* File output (`save_enriched_data`, report writing) and `print` calls are
  I/O side effects that do not affect the returned values; they are omitted.
-/

/-- One parsed transaction row. Field names follow the dict keys used by
`parse_transactions` in `src/utils/data_processor.py`. -/
structure Transaction where
  TransactionID : String
  Date : String
  ProductID : String
  ProductName : String
  Quantity : Int
  UnitPrice : Rat
  CustomerID : String
  Region : String
deriving DecidableEq, Repr

/-- `amount = Quantity * UnitPrice`, always recomputed, never stored. -/
def amount (t : Transaction) : Rat :=
  (t.Quantity : Rat) * t.UnitPrice

/-- `_clean_product_name`: remove commas inside ProductName. -/
def _clean_product_name (name : String) : String :=
  name.replace "," ""

/-- `_clean_number`: remove commas in numbers, "1,500" → "1500". -/
def _clean_number (num_str : String) : String :=
  num_str.replace "," ""

/-- Value of a digit string, most significant first. -/
def digitsToNat (cs : List Char) : Nat :=
  cs.foldl (fun n c => 10 * n + (c.toNat - Char.toNat '0')) 0

/-- Parse a non-empty all-digit character list. -/
def parseDigits? (cs : List Char) : Option Nat :=
  if cs ≠ [] ∧ cs.all Char.isDigit then some (digitsToNat cs) else none

/-- Models Python `int(s)` on the inputs this pipeline meets: an optional
leading minus sign followed by one or more ASCII digits (whitespace,
underscores and other numeral systems are not modelled). -/
def pyInt? (s : String) : Option Int :=
  match s.data with
  | '-' :: rest => (parseDigits? rest).map (fun n => -(n : Int))
  | cs => (parseDigits? cs).map (fun n => (n : Int))

/-- Digits, optionally followed by a point and further digits. -/
def pyFloatCore (cs : List Char) : Option Rat :=
  let intPart := cs.takeWhile Char.isDigit
  let rest := cs.dropWhile Char.isDigit
  match rest with
  | [] => if intPart = [] then none else some ((digitsToNat intPart : Nat) : Rat)
  | '.' :: frac =>
      if frac.all Char.isDigit ∧ (intPart ≠ [] ∨ frac ≠ []) then
        some (((digitsToNat intPart : Nat) : Rat)
          + ((digitsToNat frac : Nat) : Rat) / ((10 : Rat) ^ frac.length))
      else none
  | _ => none

/-- Models Python `float(s)` on the inputs this pipeline meets: an optional
leading minus sign followed by a decimal numeral (exponents, `inf`, `nan`,
whitespace are not modelled); the value is kept exact as a rational. -/
def pyFloat? (s : String) : Option Rat :=
  match s.data with
  | '-' :: rest => (pyFloatCore rest).map (fun q => -q)
  | cs => pyFloatCore cs

/-- Body of the loop of `parse_transactions`: split on `"|"`, require exactly
8 fields, clean commas, convert the numeric fields; `none` models the
`continue` branches (wrong field count, failed conversion). -/
def parse_line (line : String) : Option Transaction :=
  match line.splitOn "|" with
  | [transaction_id, date_str, product_id, product_name,
     quantity_str, unit_price_str, customer_id, region] =>
    match pyInt? (_clean_number quantity_str),
          pyFloat? (_clean_number unit_price_str) with
    | some quantity, some unit_price =>
        some ⟨transaction_id, date_str, product_id,
              _clean_product_name product_name,
              quantity, unit_price, customer_id, region⟩
    | _, _ => none
  | _ => none

/-- `parse_transactions`: parses raw lines into the clean transaction list,
silently dropping malformed lines. -/
def parse_transactions (raw_lines : List String) : List Transaction :=
  raw_lines.filterMap parse_line

/-- Rule (a) of `validate_and_filter`: the required fields TransactionID,
ProductID, CustomerID, Region are present and non-empty. -/
def ruleRequired (t : Transaction) : Bool :=
  t.TransactionID ≠ "" && t.ProductID ≠ "" && t.CustomerID ≠ "" && t.Region ≠ ""

/-- Rule (b): Quantity and UnitPrice must be positive. -/
def rulePositive (t : Transaction) : Bool :=
  t.Quantity > 0 && t.UnitPrice > 0

/-- Models `s.startswith(c)` for a single-character needle: the first
character of `s` is `c`. -/
def strStartsWithChar (s : String) (c : Char) : Bool :=
  match s.data with
  | [] => false
  | c2 :: _ => c2 = c

/-- Rule (c): TransactionID must start with "T". -/
def ruleTidStartsT (t : Transaction) : Bool :=
  strStartsWithChar t.TransactionID 'T'

/-- Rule (d): ProductID must start with "P". -/
def rulePidStartsP (t : Transaction) : Bool :=
  strStartsWithChar t.ProductID 'P'

/-- Rule (e): CustomerID must start with "C". -/
def ruleCidStartsC (t : Transaction) : Bool :=
  strStartsWithChar t.CustomerID 'C'

/-- The chain of `if ... continue` checks of `validate_and_filter`, as the
index (0-4 for rules a-e) of the first failing rule, `none` when all pass. -/
def firstFailingRule (t : Transaction) : Option Nat :=
  if !ruleRequired t then some 0
  else if !rulePositive t then some 1
  else if !ruleTidStartsT t then some 2
  else if !rulePidStartsP t then some 3
  else if !ruleCidStartsC t then some 4
  else none

/-- A record passes the validation loop of `validate_and_filter`. -/
def validRecord (t : Transaction) : Bool :=
  if !ruleRequired t then false
  else if !rulePositive t then false
  else if !ruleTidStartsT t then false
  else if !rulePidStartsP t then false
  else if !ruleCidStartsC t then false
  else true

/-- The validation loop of `validate_and_filter`: builds the `valid` list in
input order and the aggregate `invalid_count`. -/
def validate_pass : List Transaction → List Transaction × Nat
  | [] => ([], 0)
  | t :: ts =>
    let r := validate_pass ts
    if validRecord t then (t :: r.1, r.2) else (r.1, r.2 + 1)

/-- The region filter step: exact match on `Region` when a region is given. -/
def region_filtered (region : Option String) (l : List Transaction) :
    List Transaction :=
  match region with
  | none => l
  | some r => l.filter (fun t => t.Region = r)

/-- The body of the amount-filter loop: a record is kept unless its amount is
below `min_amount` or above `max_amount` (when those are given). -/
def passes_amount (min_amount max_amount : Option Rat) (t : Transaction) :
    Bool :=
  (match min_amount with
   | none => true
   | some m => !(amount t < m)) &&
  (match max_amount with
   | none => true
   | some m => !(amount t > m))

/-- The amount filter step, guarded as in the source by
`if min_amount is not None or max_amount is not None`. -/
def amount_filtered (min_amount max_amount : Option Rat)
    (l : List Transaction) : List Transaction :=
  if min_amount.isSome || max_amount.isSome then
    l.filter (passes_amount min_amount max_amount)
  else l

/-- The summary dict returned by `validate_and_filter`. -/
structure FilterSummary where
  total_input : Nat
  invalid : Nat
  filtered_by_region : Nat
  filtered_by_amount : Nat
  final_count : Nat
deriving DecidableEq, Repr

/-- `validate_and_filter`: validation pass, then region filter, then amount
filter; returns `(filtered, invalid_count, summary)`. The informational
`print` calls of the source are side effects omitted here. -/
def validate_and_filter (transactions : List Transaction)
    (region : Option String) (min_amount max_amount : Option Rat) :
    List Transaction × Nat × FilterSummary :=
  let vp := validate_pass transactions
  let after_region := region_filtered region vp.1
  let filtered := amount_filtered min_amount max_amount after_region
  (filtered, vp.2,
    ⟨transactions.length, vp.2, vp.1.length - after_region.length,
     after_region.length - filtered.length, filtered.length⟩)

/-- `calculate_total_revenue`: running sum of `Quantity * UnitPrice`,
starting from `0.0`. -/
def calculate_total_revenue (transactions : List Transaction) : Rat :=
  transactions.foldl (fun total t => total + amount t) 0

/-- One dict update of the `{key: {"revenue"/"total_sales", "count"}}`
accumulation pattern shared by `find_peak_sales_day` and
`region_wise_sales`: add to the existing entry for the key, or append a new
entry at the end (insertion order of a Python dict). -/
def updateStats : List (String × Rat × Nat) → String → Rat →
    List (String × Rat × Nat)
  | [], key, revenue => [(key, revenue, 1)]
  | e :: es, key, revenue =>
    if e.1 = key then (e.1, e.2.1 + revenue, e.2.2 + 1) :: es
    else e :: updateStats es key revenue

/-- The `date_stats` accumulation of `find_peak_sales_day`. -/
def dateStats (transactions : List Transaction) : List (String × Rat × Nat) :=
  transactions.foldl (fun acc t => updateStats acc t.Date (amount t)) []

/-- The peak-selection loop of `find_peak_sales_day`: start from
`peak_date = None`, `max_revenue = -1`, replace on strictly greater
revenue. -/
def peakFold (ds : List (String × Rat × Nat)) : Option String × Rat :=
  ds.foldl (fun acc e => if e.2.1 > acc.2 then (some e.1, e.2.1) else acc)
    (none, -1)

/-- `find_peak_sales_day`: accumulate per-date stats, scan for the maximum,
then `if peak_date:` — which by Python truthiness returns `None` both when
no date was ever selected and when the selected date is the empty string.
The `date_stats[peak_date]` count lookup is modelled by `find?` (the key is
always present when reached; the `getD 0` default is never used). -/
def find_peak_sales_day (transactions : List Transaction) :
    Option (String × Rat × Nat) :=
  let ds := dateStats transactions
  match peakFold ds with
  | (some peak_date, max_revenue) =>
    if peak_date = "" then none
    else some (peak_date, max_revenue,
      (((ds.find? (fun e => e.1 = peak_date)).map (fun e => e.2.2)).getD 0))
  | (none, _) => none

/-- Per-day accumulator of `daily_sales_trend`; `unique_customers` models
the Python set as a duplicate-free list (only its size is ever output). -/
structure DayTrend where
  revenue : Rat
  transaction_count : Nat
  unique_customers : List String
deriving DecidableEq, Repr

/-- Set insertion for the `unique_customers` set. -/
def addUnique (cs : List String) (c : String) : List String :=
  if c ∈ cs then cs else cs ++ [c]

/-- One dict update of the `trends` accumulation in `daily_sales_trend`. -/
def updateTrend : List (String × DayTrend) → String → Rat → String →
    List (String × DayTrend)
  | [], date, revenue, customer => [(date, ⟨revenue, 1, [customer]⟩)]
  | e :: es, date, revenue, customer =>
    if e.1 = date then
      (e.1, ⟨e.2.revenue + revenue, e.2.transaction_count + 1,
             addUnique e.2.unique_customers customer⟩) :: es
    else e :: updateTrend es date revenue customer

/-- Stable insertion of one element: `x` goes after every already-placed
element `y` with `le y x`, so elements with equal keys keep their original
relative order. -/
def insertSorted {α : Type} (le : α → α → Bool) (x : α) : List α → List α
  | [] => [x]
  | y :: ys => if le y x then y :: insertSorted le x ys else x :: y :: ys

/-- Python's stable `sorted` for a total boolean preorder `le`, as a stable
insertion sort (the stable sort of a list is unique, so this agrees with
the source's sort). -/
def pySorted {α : Type} (le : α → α → Bool) (l : List α) : List α :=
  l.foldl (fun acc x => insertSorted le x acc) []

/-- `daily_sales_trend`: per-date accumulation, sets replaced by their
sizes, result sorted by date ascending. Output entries are
`(date, revenue, transaction_count, unique_customers)`. -/
def daily_sales_trend (transactions : List Transaction) :
    List (String × Rat × Nat × Nat) :=
  let trends := transactions.foldl
    (fun acc t => updateTrend acc t.Date (amount t) t.CustomerID) []
  (pySorted (fun a b => decide (a.1 ≤ b.1)) trends).map
    (fun e => (e.1, e.2.revenue, e.2.transaction_count,
               e.2.unique_customers.length))

/-- Python division on floats: raises `ZeroDivisionError` on a zero
divisor. -/
def pyDivQ (a b : Rat) : Except String Rat :=
  if b = 0 then Except.error "ZeroDivisionError" else Except.ok (a / b)

/-- `region_wise_sales`: accumulate `{total_sales, transaction_count}` per
region, compute `percentage = total_sales / total_all_revenue * 100` for
every region (this division is unguarded in the source), then sort by
`total_sales` descending. Output entries are
`(region, total_sales, transaction_count, percentage)`. -/
def region_wise_sales (transactions : List Transaction) :
    Except String (List (String × Rat × Nat × Rat)) := do
  let total_all_revenue := calculate_total_revenue transactions
  let region_stats := transactions.foldl
    (fun acc t => updateStats acc t.Region (amount t)) []
  let withPct ← region_stats.mapM (fun e => do
    let frac ← pyDivQ e.2.1 total_all_revenue
    pure (e.1, e.2.1, e.2.2, frac * 100))
  pure (pySorted (fun a b => decide (b.2.1 ≤ a.2.1)) withPct)

/-- The scan underlying `re.search(r"(\d+)", s)`: the first maximal run of
digits in the character list, if any. (`\d` is modelled as ASCII digits;
the pipeline's product ids are ASCII.) -/
def extractDigitRun : List Char → Option (List Char)
  | [] => none
  | c :: cs =>
    if c.isDigit then some (c :: cs.takeWhile Char.isDigit)
    else extractDigitRun cs

/-- `_extract_numeric_product_id`: numeric value of the first digit run of
the product id, `None` when there is none. -/
def _extract_numeric_product_id (product_id : String) : Option Nat :=
  (extractDigitRun product_id.data).map digitsToNat

/-- One catalog entry as built by `create_product_mapping`; the `p.get`
calls may return `None`, hence the `Option` fields. -/
structure CatalogEntry where
  title : Option String
  category : Option String
  brand : Option String
  rating : Option Rat
deriving DecidableEq, Repr

/-- A product transaction enriched by `enrich_sales_data`: the original
record plus exactly the four API fields. -/
structure EnrichedTransaction where
  base : Transaction
  API_Category : Option String
  API_Brand : Option String
  API_Rating : Option Rat
  API_Match : Bool
deriving DecidableEq, Repr

/-- Body of the loop of `enrich_sales_data` for one record: extract the
numeric id, look it up in the mapping (modelled as an association list with
first-match lookup; `create_product_mapping` produces unique keys), fill
the four API fields. `t.copy()` plus new keys is modelled by building a new
`EnrichedTransaction` around the unchanged record. -/
def enrichOne (product_mapping : List (Nat × CatalogEntry))
    (t : Transaction) : EnrichedTransaction :=
  let numeric_id := _extract_numeric_product_id t.ProductID
  let product_info := numeric_id.bind
    (fun n => (product_mapping.find? (fun e => e.1 = n)).map (fun e => e.2))
  match product_info with
  | some info => ⟨t, info.category, info.brand, info.rating, true⟩
  | none => ⟨t, none, none, none, false⟩

/-- `enrich_sales_data`: one enriched record per input record, in order.
The `save_enriched_data` file write at the end of the source function is an
I/O side effect that does not change the returned list; it is omitted. -/
def enrich_sales_data (transactions : List Transaction)
    (product_mapping : List (Nat × CatalogEntry)) :
    List EnrichedTransaction :=
  transactions.map (enrichOne product_mapping)

/-- A record whose amount is zero: quantity 0, so `Quantity * UnitPrice = 0`
while the record still carries a region group. -/
def zeroRevenueRecord : Transaction :=
  ⟨"T001", "2024-12-01", "P101", "Widget", 0, 5, "C001", "North"⟩

/-- A record passing all five validation rules whose `Date` is the empty
string. -/
def emptyDateRecord : Transaction :=
  ⟨"T001", "", "P101", "Widget", 2, 5, "C001", "North"⟩

/-- Concrete sample record: date 2024-12-01, amount 10. -/
def tA : Transaction :=
  ⟨"T001", "2024-12-01", "P101", "Laptop", 2, 5, "C001", "North"⟩

/-- Concrete sample record: date 2024-12-02, amount 6. -/
def tB : Transaction :=
  ⟨"T002", "2024-12-02", "P102", "Mouse", 2, 3, "C002", "South"⟩

/-- Concrete record whose product id contains no digit. -/
def tPX : Transaction :=
  ⟨"T003", "2024-12-03", "PX", "Cable", 1, 4, "C003", "East"⟩

/-- A sample catalog entry. -/
def sampleEntry : CatalogEntry :=
  ⟨some "Laptop", some "electronics", some "Acme", some 4⟩

/-! ### Helper lemmas -/

theorem foldl_add_amount (l : List Transaction) (x : Rat) :
    l.foldl (fun total t => total + amount t) x = x + (l.map amount).sum := by
  induction l generalizing x with
  | nil => simp
  | cons t ts ih => simp [ih, add_assoc]

theorem calculate_total_revenue_eq_sum (l : List Transaction) :
    calculate_total_revenue l = (l.map amount).sum := by
  simpa using foldl_add_amount l 0

theorem insertSorted_perm {α : Type} (le : α → α → Bool) (x : α)
    (l : List α) : (insertSorted le x l).Perm (x :: l) := by
  induction l with
  | nil => exact List.Perm.refl _
  | cons y ys ih =>
    simp only [insertSorted]
    split
    · exact (ih.cons y).trans (List.Perm.swap x y ys)
    · exact List.Perm.refl _

theorem pySorted_perm {α : Type} (le : α → α → Bool) (l : List α) :
    (pySorted le l).Perm l := by
  have aux : ∀ (m acc : List α),
      (m.foldl (fun acc x => insertSorted le x acc) acc).Perm (acc ++ m) := by
    intro m
    induction m with
    | nil => intro acc; simp
    | cons x xs ih =>
      intro acc
      simp only [List.foldl_cons]
      exact (ih (insertSorted le x acc)).trans
        (((insertSorted_perm le x acc).append_right xs).trans
          List.perm_middle.symm)
  simpa using aux l []

/-- Revenue component summed over a trend accumulator. -/
def trendRevSum (l : List (String × DayTrend)) : Rat :=
  (l.map (fun e => e.2.revenue)).sum

theorem updateTrend_revSum (l : List (String × DayTrend)) (d : String)
    (r : Rat) (c : String) :
    trendRevSum (updateTrend l d r c) = trendRevSum l + r := by
  induction l with
  | nil => simp [updateTrend, trendRevSum]
  | cons e es ih =>
    simp only [updateTrend]
    split
    · simp [trendRevSum]; ring
    · simp only [trendRevSum, List.map_cons, List.sum_cons] at ih ⊢
      rw [ih]; ring

theorem trendFold_revSum (ts : List Transaction)
    (acc : List (String × DayTrend)) :
    trendRevSum (ts.foldl
        (fun acc t => updateTrend acc t.Date (amount t) t.CustomerID) acc)
      = trendRevSum acc + (ts.map amount).sum := by
  induction ts generalizing acc with
  | nil => simp
  | cons t ts ih =>
    simp only [List.foldl_cons, List.map_cons, List.sum_cons]
    rw [ih, updateTrend_revSum]; ring

/-- C7: the per-date revenues of `daily_sales_trend` sum to
`calculate_total_revenue` of the same record set. -/
theorem daily_trend_revenue_sums_to_total (transactions : List Transaction) :
    ((daily_sales_trend transactions).map (fun e => e.2.1)).sum
      = calculate_total_revenue transactions := by
  rw [calculate_total_revenue_eq_sum]
  unfold daily_sales_trend
  rw [List.map_map]
  have hperm := ((pySorted_perm (fun a b => decide (a.1 ≤ b.1))
      (transactions.foldl
        (fun acc t => updateTrend acc t.Date (amount t) t.CustomerID) [])).map
    (fun e : String × DayTrend => e.2.revenue))
  have hsum := hperm.sum_eq
  have : trendRevSum (transactions.foldl
      (fun acc t => updateTrend acc t.Date (amount t) t.CustomerID) [])
      = (transactions.map amount).sum := by
    simpa [trendRevSum] using trendFold_revSum transactions []
  calc ((pySorted (fun a b => decide (a.1 ≤ b.1))
          (transactions.foldl
            (fun acc t => updateTrend acc t.Date (amount t) t.CustomerID)
            [])).map
        ((fun e : String × Rat × Nat × Nat => e.2.1) ∘
          (fun e : String × DayTrend =>
            (e.1, e.2.revenue, e.2.transaction_count,
             e.2.unique_customers.length)))).sum
      = ((pySorted (fun a b => decide (a.1 ≤ b.1))
          (transactions.foldl
            (fun acc t => updateTrend acc t.Date (amount t) t.CustomerID)
            [])).map (fun e : String × DayTrend => e.2.revenue)).sum := rfl
    _ = (transactions.map amount).sum := by rw [hsum]; exact this

/-- C6: total revenue is `0.0` on the empty input and invariant under
permutation of the record list. -/
theorem total_revenue_perm_invariant (l l' : List Transaction)
    (h : l.Perm l') :
    calculate_total_revenue ([] : List Transaction) = 0 ∧
    calculate_total_revenue l = calculate_total_revenue l' := by
  refine ⟨rfl, ?_⟩
  rw [calculate_total_revenue_eq_sum, calculate_total_revenue_eq_sum]
  exact (h.map amount).sum_eq

/-- Witness for C6 at a concrete two-record swap. -/
theorem total_revenue_perm_invariant_witness :
    calculate_total_revenue ([] : List Transaction) = 0 ∧
    calculate_total_revenue [tA, tB] = calculate_total_revenue [tB, tA] :=
  total_revenue_perm_invariant [tA, tB] [tB, tA] (List.Perm.swap tB tA [])

theorem validate_pass_length (ts : List Transaction) :
    (validate_pass ts).1.length + (validate_pass ts).2 = ts.length := by
  induction ts with
  | nil => rfl
  | cons t ts ih =>
    simp only [validate_pass]
    split <;> simp <;> omega

theorem parse_drop_conservation (lines : List String) :
    (lines.filterMap parse_line).length
      + lines.countP (fun l => (parse_line l).isNone) = lines.length := by
  induction lines with
  | nil => rfl
  | cons l ls ih =>
    cases h : parse_line l <;>
      simp [List.filterMap_cons, List.countP_cons, h] <;> omega

/-- C3: records returned valid, plus the aggregate invalid count, plus the
lines silently dropped by `parse_transactions`, account for every raw
line when no filters are applied. -/
theorem parse_validate_conservation (raw_lines : List String) :
    (validate_and_filter (parse_transactions raw_lines) none none none).1.length
      + (validate_and_filter (parse_transactions raw_lines) none none none).2.1
      + raw_lines.countP (fun l => (parse_line l).isNone)
      = raw_lines.length := by
  have h1 : (validate_and_filter (parse_transactions raw_lines)
      none none none).1 = (validate_pass (parse_transactions raw_lines)).1 :=
    rfl
  have h2 : (validate_and_filter (parse_transactions raw_lines)
      none none none).2.1 = (validate_pass (parse_transactions raw_lines)).2 :=
    rfl
  rw [h1, h2]
  have h3 := validate_pass_length (parse_transactions raw_lines)
  have h4 := parse_drop_conservation raw_lines
  have h5 : (parse_transactions raw_lines).length
      = (raw_lines.filterMap parse_line).length := rfl
  omega

theorem enrichOne_base (m : List (Nat × CatalogEntry)) (t : Transaction) :
    (enrichOne m t).base = t := by
  simp only [enrichOne]
  split <;> rfl

/-- C4: enrichment is 1:1 and order preserving; each output record carries
the input record unchanged (`base`) plus exactly the four API fields (the
`EnrichedTransaction` type), and, the embedding being pure, no input record
is mutated. -/
theorem enrich_preserves_records (transactions : List Transaction)
    (product_mapping : List (Nat × CatalogEntry)) (i : Nat)
    (hi : i < transactions.length) :
    (enrich_sales_data transactions product_mapping).length
      = transactions.length ∧
    ((enrich_sales_data transactions product_mapping).get
        ⟨i, by simpa [enrich_sales_data] using hi⟩).base
      = transactions.get ⟨i, hi⟩ := by
  refine ⟨by simp [enrich_sales_data], ?_⟩
  simp [enrich_sales_data, enrichOne_base]

/-- Witness for C4 at a concrete record and empty mapping. -/
theorem enrich_preserves_records_witness :
    (enrich_sales_data [tA] []).length = [tA].length ∧
    ((enrich_sales_data [tA] []).get
        ⟨0, by simp [enrich_sales_data]⟩).base = [tA].get ⟨0, by simp⟩ :=
  enrich_preserves_records [tA] [] 0 (by simp)

/-- C5: the validation rules are applied in the order (a) required fields,
(b) positive quantity and price, (c) "T" prefix, (d) "P" prefix, (e) "C"
prefix; the first failing rule alone classifies the record (later rules are
not consulted), and each invalid record adds exactly one to the aggregate
invalid count while each valid record is kept in order. -/
theorem validation_rule_order (t : Transaction) (ts : List Transaction) :
    (firstFailingRule t = some 0 ↔ ruleRequired t = false) ∧
    (firstFailingRule t = some 1 ↔
      ruleRequired t = true ∧ rulePositive t = false) ∧
    (firstFailingRule t = some 2 ↔
      ruleRequired t = true ∧ rulePositive t = true ∧
      ruleTidStartsT t = false) ∧
    (firstFailingRule t = some 3 ↔
      ruleRequired t = true ∧ rulePositive t = true ∧
      ruleTidStartsT t = true ∧ rulePidStartsP t = false) ∧
    (firstFailingRule t = some 4 ↔
      ruleRequired t = true ∧ rulePositive t = true ∧
      ruleTidStartsT t = true ∧ rulePidStartsP t = true ∧
      ruleCidStartsC t = false) ∧
    (firstFailingRule t = none ↔ validRecord t = true) ∧
    (validate_pass (t :: ts) =
      if (firstFailingRule t).isSome then
        ((validate_pass ts).1, (validate_pass ts).2 + 1)
      else (t :: (validate_pass ts).1, (validate_pass ts).2)) := by
  cases hA : ruleRequired t <;> cases hB : rulePositive t <;>
    cases hC : ruleTidStartsT t <;> cases hD : rulePidStartsP t <;>
    cases hE : ruleCidStartsC t <;>
    simp [firstFailingRule, validRecord, validate_pass, hA, hB, hC, hD, hE]

theorem validate_pass_mem {ts : List Transaction} {t : Transaction}
    (h : t ∈ (validate_pass ts).1) : validRecord t = true := by
  induction ts with
  | nil => simp [validate_pass] at h
  | cons u us ih =>
    simp only [validate_pass] at h
    by_cases hu : validRecord u = true
    · rw [if_pos hu] at h
      rcases List.mem_cons.mp h with h | h
      · subst h; exact hu
      · exact ih h
    · rw [if_neg hu] at h
      exact ih h

theorem validate_pass_all_valid {l : List Transaction}
    (h : ∀ t ∈ l, validRecord t = true) : validate_pass l = (l, 0) := by
  induction l with
  | nil => rfl
  | cons t ts ih =>
    simp only [validate_pass]
    rw [ih (fun x hx => h x (List.mem_cons_of_mem t hx)),
      if_pos (h t (List.mem_cons_self t ts))]

theorem region_filtered_mem {region : Option String}
    {l : List Transaction} {t : Transaction}
    (h : t ∈ region_filtered region l) : t ∈ l := by
  cases region with
  | none => exact h
  | some r => exact List.mem_of_mem_filter h

theorem amount_filtered_mem {mn mx : Option Rat} {l : List Transaction}
    {t : Transaction} (h : t ∈ amount_filtered mn mx l) : t ∈ l := by
  unfold amount_filtered at h
  split at h
  · exact List.mem_of_mem_filter h
  · exact h

theorem region_filtered_idem (region : Option String)
    (l l0 : List Transaction) (hsub : ∀ t ∈ l, t ∈ region_filtered region l0) :
    region_filtered region l = l := by
  cases region with
  | none => rfl
  | some r =>
    apply List.filter_eq_self.mpr
    intro t ht
    have := hsub t ht
    simpa using (List.mem_filter.mp this).2

theorem amount_filtered_idem (mn mx : Option Rat) (l l0 : List Transaction)
    (hsub : ∀ t ∈ l, t ∈ amount_filtered mn mx l0) :
    amount_filtered mn mx l = l := by
  unfold amount_filtered
  split
  · next hguard =>
    apply List.filter_eq_self.mpr
    intro t ht
    have := hsub t ht
    unfold amount_filtered at this
    rw [if_pos hguard] at this
    exact (List.mem_filter.mp this).2
  · rfl

/-- C8: applying `validate_and_filter` to its own output, with the same
filter parameters, returns that output unchanged with an invalid count of
zero. -/
theorem validate_and_filter_idempotent (ts : List Transaction)
    (region : Option String) (min_amount max_amount : Option Rat) :
    (validate_and_filter
        (validate_and_filter ts region min_amount max_amount).1
        region min_amount max_amount).1
      = (validate_and_filter ts region min_amount max_amount).1 ∧
    (validate_and_filter
        (validate_and_filter ts region min_amount max_amount).1
        region min_amount max_amount).2.1 = 0 := by
  have hout : (validate_and_filter ts region min_amount max_amount).1
      = amount_filtered min_amount max_amount
          (region_filtered region (validate_pass ts).1) := rfl
  set out := (validate_and_filter ts region min_amount max_amount).1 with hdef
  have hvalid : ∀ t ∈ out, validRecord t = true := by
    intro t ht
    rw [hout] at ht
    exact validate_pass_mem (region_filtered_mem (amount_filtered_mem ht))
  have hvp : validate_pass out = (out, 0) := validate_pass_all_valid hvalid
  have hreg : region_filtered region out = out := by
    apply region_filtered_idem region out (validate_pass ts).1
    intro t ht
    rw [hout] at ht
    exact amount_filtered_mem ht
  have hamt : amount_filtered min_amount max_amount out = out := by
    apply amount_filtered_idem min_amount max_amount out
      (region_filtered region (validate_pass ts).1)
    intro t ht
    rw [hout] at ht
    exact ht
  constructor
  · show (amount_filtered min_amount max_amount
      (region_filtered region (validate_pass out).1)) = out
    rw [hvp, hreg, hamt]
  · show (validate_pass out).2 = 0
    rw [hvp]

theorem peak_step_le (l : List (String × Rat × Nat))
    (acc : Option String × Rat) (h : ∀ e ∈ l, e.2.1 ≤ acc.2) :
    l.foldl (fun acc e => if e.2.1 > acc.2 then (some e.1, e.2.1) else acc)
      acc = acc := by
  induction l with
  | nil => rfl
  | cons e es ih =>
    simp only [List.foldl_cons]
    rw [if_neg (not_lt.mpr (h e (List.mem_cons_self e es)))]
    exact ih (fun x hx => h x (List.mem_cons_of_mem e hx))

theorem peak_step_lt (l : List (String × Rat × Nat)) (M : Rat)
    (acc : Option String × Rat) (hacc : acc.2 < M)
    (h : ∀ e ∈ l, e.2.1 < M) :
    (l.foldl (fun acc e => if e.2.1 > acc.2 then (some e.1, e.2.1) else acc)
      acc).2 < M := by
  induction l generalizing acc with
  | nil => exact hacc
  | cons e es ih =>
    simp only [List.foldl_cons]
    split
    · exact ih _ (h e (List.mem_cons_self e es))
        (fun x hx => h x (List.mem_cons_of_mem e hx))
    · exact ih _ hacc (fun x hx => h x (List.mem_cons_of_mem e hx))

theorem peakFold_first_max (l₁ l₂ : List (String × Rat × Nat)) (d : String)
    (M : Rat) (c : Nat) (hlt : ∀ e ∈ l₁, e.2.1 < M) (hM : -1 < M)
    (hle : ∀ e ∈ l₂, e.2.1 ≤ M) :
    peakFold (l₁ ++ (d, M, c) :: l₂) = (some d, M) := by
  unfold peakFold
  rw [List.foldl_append]
  have h1 : (l₁.foldl
      (fun acc e => if e.2.1 > acc.2 then (some e.1, e.2.1) else acc)
      (none, -1)).2 < M := peak_step_lt l₁ M (none, -1) hM hlt
  simp only [List.foldl_cons]
  rw [if_pos h1]
  exact peak_step_le l₂ (some d, M) (by simpa using hle)

theorem find?_append_of_none {α : Type} (p : α → Bool) (l₁ l₂ : List α)
    (h : ∀ e ∈ l₁, p e = false) :
    (l₁ ++ l₂).find? p = l₂.find? p := by
  induction l₁ with
  | nil => rfl
  | cons e es ih =>
    simp only [List.cons_append, List.find?]
    rw [h e (List.mem_cons_self e es)]
    exact ih (fun x hx => h x (List.mem_cons_of_mem e hx))

/-- C2 counterexample: a non-empty input (one valid record whose date is
the empty string) on which `find_peak_sales_day` returns its "no data"
result instead of a `(date, revenue, transaction_count)` triple. -/
theorem peak_day_counterexample :
    ([emptyDateRecord] ≠ ([] : List Transaction)) ∧
    find_peak_sales_day [emptyDateRecord] = none := by
  refine ⟨by simp, ?_⟩
  simp +decide [find_peak_sales_day, dateStats, updateStats, peakFold,
    amount, emptyDateRecord]
  norm_num

/-- C2 (amended): on an input whose date-stats decompose around a first
maximum — every earlier date has strictly smaller accumulated revenue and a
different date, every later one has no larger revenue — and whose maximum
exceeds the scan's `-1` sentinel and falls on a non-empty date string,
`find_peak_sales_day` returns that first-encountered maximum date with its
revenue and transaction count; it returns `none` for empty input (and
also, beyond the original claim, whenever the winning date is the empty
string or every accumulated revenue is at most `-1`). -/
theorem find_peak_sales_day_first_max (transactions : List Transaction)
    (l₁ l₂ : List (String × Rat × Nat)) (d : String) (M : Rat) (c : Nat)
    (hds : dateStats transactions = l₁ ++ (d, M, c) :: l₂)
    (hlt : ∀ e ∈ l₁, e.2.1 < M)
    (hkey : ∀ e ∈ l₁, e.1 ≠ d)
    (hle : ∀ e ∈ l₂, e.2.1 ≤ M)
    (hM : -1 < M) (hd : d ≠ "") :
    find_peak_sales_day transactions = some (d, M, c) ∧
    find_peak_sales_day ([] : List Transaction) = none := by
  refine ⟨?_, rfl⟩
  simp only [find_peak_sales_day, hds]
  rw [peakFold_first_max l₁ l₂ d M c hlt hM hle]
  simp only [if_neg hd]
  rw [find?_append_of_none (fun e => e.1 = d) l₁ ((d, M, c) :: l₂)
    (fun e he => by simpa using hkey e he)]
  simp [List.find?]

/-- Witness for the amended C2 at a concrete two-date input. -/
theorem find_peak_sales_day_first_max_witness :
    find_peak_sales_day [tA, tB] = some ("2024-12-01", 10, 1) ∧
    find_peak_sales_day ([] : List Transaction) = none :=
  find_peak_sales_day_first_max [tA, tB] [] [("2024-12-02", 6, 1)]
    "2024-12-01" 10 1
    (by simp +decide [dateStats, updateStats, amount, tA, tB]; norm_num)
    (by simp) (by simp)
    (by intro e he; simp at he; subst he; norm_num)
    (by norm_num) (by decide)

/-- C1: evaluation of `region_wise_sales` at a failing input. On the empty
set it returns the empty dict without fault, but on a non-empty record set
of total revenue zero the unguarded `total_sales / total_all_revenue`
raises `ZeroDivisionError` instead of reporting a `0` percentage. -/
theorem region_wise_sales_zero_total :
    region_wise_sales [zeroRevenueRecord]
      = Except.error "ZeroDivisionError" ∧
    region_wise_sales ([] : List Transaction) = Except.ok [] := by
  constructor
  · simp +decide [region_wise_sales, calculate_total_revenue, updateStats,
      amount, zeroRevenueRecord, pyDivQ, List.mapM.loop, Except.map]
  · simp +decide [region_wise_sales, calculate_total_revenue,
      List.mapM.loop, pySorted, Except.map, pure, Except.pure,
      Bind.bind, Except.bind]

theorem takeWhile_append_all {α : Type} (p : α → Bool) (l₁ l₂ : List α)
    (h : ∀ c ∈ l₁, p c = true)
    (h2 : ∀ c, l₂.head? = some c → p c = false) :
    (l₁ ++ l₂).takeWhile p = l₁ := by
  induction l₁ with
  | nil =>
    cases l₂ with
    | nil => rfl
    | cons c cs => simp [List.takeWhile_cons, h2 c rfl]
  | cons c cs ih =>
    have hc := h c (List.mem_cons_self c cs)
    have ihr := ih (fun x hx => h x (List.mem_cons_of_mem c hx))
    simp [List.takeWhile_cons, hc, ihr]

theorem extractDigitRun_none {l : List Char}
    (h : ∀ c ∈ l, c.isDigit = false) : extractDigitRun l = none := by
  induction l with
  | nil => rfl
  | cons c cs ih =>
    simp only [extractDigitRun]
    rw [if_neg (by simp [h c (List.mem_cons_self c cs)])]
    exact ih (fun x hx => h x (List.mem_cons_of_mem c hx))

theorem extractDigitRun_first_max_run (pre run post : List Char)
    (hpre : ∀ c ∈ pre, c.isDigit = false) (hrun : run ≠ [])
    (hdig : ∀ c ∈ run, c.isDigit = true)
    (hpost : ∀ c, post.head? = some c → c.isDigit = false) :
    extractDigitRun (pre ++ run ++ post) = some run := by
  induction pre with
  | nil =>
    cases run with
    | nil => exact absurd rfl hrun
    | cons r rs =>
      simp only [List.nil_append, List.cons_append, extractDigitRun]
      rw [if_pos (hdig r (List.mem_cons_self r rs))]
      rw [show rs.append post = rs ++ post from rfl]
      rw [takeWhile_append_all Char.isDigit rs post
        (fun x hx => hdig x (List.mem_cons_of_mem r hx)) hpost]
  | cons c cs ih =>
    simp only [List.cons_append, extractDigitRun]
    rw [if_neg (by simp [hpre c (List.mem_cons_self c cs)])]
    exact ih (fun x hx => hpre x (List.mem_cons_of_mem c hx))

/-- C9: `_extract_numeric_product_id` yields the value of the first maximal
digit run of the product id ("P101" → 101); on a product id containing no
digit it yields `None`, and then enrichment marks the record
`API_Match = false` with null API fields whatever the mapping holds. -/
theorem numeric_id_first_digit_run :
    (_extract_numeric_product_id "P101" = some 101) ∧
    (∀ pre run post : List Char,
      (∀ c ∈ pre, c.isDigit = false) → run ≠ [] →
      (∀ c ∈ run, c.isDigit = true) →
      (∀ c, post.head? = some c → c.isDigit = false) →
      _extract_numeric_product_id (String.mk (pre ++ run ++ post))
        = some (digitsToNat run)) ∧
    (∀ s : String, (∀ c ∈ s.data, c.isDigit = false) →
      _extract_numeric_product_id s = none) ∧
    (∀ (t : Transaction) (m : List (Nat × CatalogEntry)),
      (∀ c ∈ t.ProductID.data, c.isDigit = false) →
      enrichOne m t = ⟨t, none, none, none, false⟩) := by
  refine ⟨by decide, ?_, ?_, ?_⟩
  · intro pre run post h1 h2 h3 h4
    unfold _extract_numeric_product_id
    rw [show (String.mk (pre ++ run ++ post)).data
        = pre ++ run ++ post from rfl]
    rw [extractDigitRun_first_max_run pre run post h1 h2 h3 h4]
    rfl
  · intro s h
    simp [_extract_numeric_product_id, extractDigitRun_none h]
  · intro t m h
    simp [enrichOne, _extract_numeric_product_id, extractDigitRun_none h]

/-- Witness for C9: the decomposition of "P101", a digit-free product id,
and enrichment of a digit-free record against a non-empty mapping. -/
theorem numeric_id_first_digit_run_witness :
    _extract_numeric_product_id
        (String.mk ((['P'] ++ ['1', '0', '1']) ++ []))
      = some (digitsToNat ['1', '0', '1']) ∧
    _extract_numeric_product_id "PX" = none ∧
    enrichOne [(101, sampleEntry)] tPX = ⟨tPX, none, none, none, false⟩ :=
  ⟨numeric_id_first_digit_run.2.1 ['P'] ['1', '0', '1'] []
      (by decide) (by decide) (by decide) (by simp),
   numeric_id_first_digit_run.2.2.1 "PX" (by decide),
   numeric_id_first_digit_run.2.2.2 tPX [(101, sampleEntry)] (by decide)⟩

/-- C10: validation never consults `Date` — replacing the date of any
record leaves its validity unchanged — so the record `emptyDateRecord`
with an empty-string date is accepted as valid with zero invalid count,
and on that non-empty validated input `find_peak_sales_day` returns its
"no data" result `none` instead of a triple. -/
theorem validator_ignores_date :
    (∀ (t : Transaction) (d : String),
      validRecord ⟨t.TransactionID, d, t.ProductID, t.ProductName,
        t.Quantity, t.UnitPrice, t.CustomerID, t.Region⟩
        = validRecord t) ∧
    (validate_and_filter [emptyDateRecord] none none none).1
      = [emptyDateRecord] ∧
    (validate_and_filter [emptyDateRecord] none none none).2.1 = 0 ∧
    find_peak_sales_day [emptyDateRecord] = none := by
  refine ⟨fun t d => rfl, ?_, ?_, ?_⟩
  · simp +decide [validate_and_filter, validate_pass, validRecord,
      ruleRequired, rulePositive, ruleTidStartsT, rulePidStartsP,
      ruleCidStartsC, strStartsWithChar, emptyDateRecord,
      region_filtered, amount_filtered]
  · simp +decide [validate_and_filter, validate_pass, validRecord,
      ruleRequired, rulePositive, ruleTidStartsT, rulePidStartsP,
      ruleCidStartsC, strStartsWithChar, emptyDateRecord]
  · simp +decide [find_peak_sales_day, dateStats, updateStats, peakFold,
      amount, emptyDateRecord]
    norm_num
